import Mathlib

/-!
Verification of the mass-download engine of the Mirror-Crates repository.

The Go source (package downloader, plus internal/sidecar) is shallowly embedded:

* Go byte strings are modelled as Lean strings / lists of characters; all the
  inputs the engine handles (crate names, URLs, hex digests) are ASCII, where
  Go's byte indexing and Lean's character indexing agree.
* The filesystem is an explicit association list from paths (lists of
  components, mirroring filepath.Join) to byte contents (lists of bytes).
  Local I/O errors (mkdir/create/rename failures) are not modelled: the FS
  operations of the model always succeed.
* One HTTP attempt's outcome (a transport error, a status code, a fully read
  body, or a body read that fails midway) is supplied by an oracle indexed by
  the attempt number; wall-clock nanoseconds for the jitter are supplied by a
  second oracle.  Prometheus metrics, logging and timestamps are not modelled.
* crypto/sha256 + hex.EncodeToString is implemented bit-for-bit over Nat
  (32-bit words represented as naturals reduced mod 2^32), validated below
  against the standard test vectors.
* Go's int64 duration arithmetic in the backoff computation is modelled on Int
  with explicit two's-complement wrapping mod 2^64.
-/

/-! ## SHA-256 (crypto/sha256) over Nat, hex output (encoding/hex) -/

/-- Reduce to a 32-bit word. -/
def m32 (x : Nat) : Nat := x % 4294967296

/-- Right rotation of a 32-bit word. -/
def rotr32 (n x : Nat) : Nat := m32 ((x >>> n) ||| (x <<< (32 - n)))

def shaS0 (x : Nat) : Nat := (rotr32 7 x) ^^^ (rotr32 18 x) ^^^ (x >>> 3)
def shaS1 (x : Nat) : Nat := (rotr32 17 x) ^^^ (rotr32 19 x) ^^^ (x >>> 10)
def shaB0 (x : Nat) : Nat := (rotr32 2 x) ^^^ (rotr32 13 x) ^^^ (rotr32 22 x)
def shaB1 (x : Nat) : Nat := (rotr32 6 x) ^^^ (rotr32 11 x) ^^^ (rotr32 25 x)

/-- The 64 SHA-256 round constants. -/
def shaK : List Nat :=
  [1116352408, 1899447441, 3049323471, 3921009573, 961987163,
   1508970993, 2453635748, 2870763221, 3624381080, 310598401,
   607225278, 1426881987, 1925078388, 2162078206, 2614888103,
   3248222580, 3835390401, 4022224774, 264347078, 604807628,
   770255983, 1249150122, 1555081692, 1996064986, 2554220882,
   2821834349, 2952996808, 3210313671, 3336571891, 3584528711,
   113926993, 338241895, 666307205, 773529912, 1294757372,
   1396182291, 1695183700, 1986661051, 2177026350, 2456956037,
   2730485921, 2820302411, 3259730800, 3345764771, 3516065817,
   3600352804, 4094571909, 275423344, 430227734, 506948616,
   659060556, 883997877, 958139571, 1322822218, 1537002063,
   1747873779, 1955562222, 2024104815, 2227730452, 2361852424,
   2428436474, 2756734187, 3204031479, 3329325298]

/-- The SHA-256 initial hash state. -/
def shaH0 : List Nat :=
  [1779033703, 3144134277, 1013904242, 2773480762, 1359893119,
   2600822924, 528734635, 1541459225]

/-- Big-endian 8-byte encoding of a (64-bit) length. -/
def be64 (n : Nat) : List Nat := (List.range 8).map (fun i => (n >>> (8 * (7 - i))) % 256)

/-- SHA-256 message padding: 0x80, zeros to 56 mod 64, then the bit length. -/
def shaPad (msg : List Nat) : List Nat :=
  let len := msg.length
  let z := (119 - (len % 64)) % 64
  msg ++ 128 :: List.replicate z 0 ++ be64 (8 * len)

/-- Big-endian packing of bytes into 32-bit words. -/
def toWords32 : List Nat → List Nat
  | a :: b :: c :: d :: rest => (((((a <<< 8) ||| b) <<< 8) ||| c) <<< 8 ||| d) :: toWords32 rest
  | _ => []

/-- One message-schedule extension step; the accumulator holds the schedule
words most recent first. -/
def extendW (racc : List Nat) : Nat :=
  m32 (shaS1 (racc.getD 1 0) + racc.getD 6 0 + shaS0 (racc.getD 14 0) + racc.getD 15 0)

/-- Extend the 16 block words to the 64 schedule words. -/
def buildW : Nat → List Nat → List Nat
  | 0, racc => racc.reverse
  | n + 1, racc => buildW n (extendW racc :: racc)

/-- Compress one 64-byte block into the running 8-word state. -/
def shaCompress (h : List Nat) (block : List Nat) : List Nat :=
  let w := buildW 48 (toWords32 block).reverse
  let st := (shaK.zip w).foldl
    (fun (s : Nat × Nat × Nat × Nat × Nat × Nat × Nat × Nat) kw =>
      let (a, b, c, d, e, f, g, hh) := s
      let ch := (e &&& f) ^^^ ((4294967295 - e) &&& g)
      let maj := (a &&& b) ^^^ (a &&& c) ^^^ (b &&& c)
      let t1 := m32 (hh + shaB1 e + ch + kw.1 + kw.2)
      let t2 := m32 (shaB0 a + maj)
      (m32 (t1 + t2), a, b, c, m32 (d + t1), e, f, g))
    (h.getD 0 0, h.getD 1 0, h.getD 2 0, h.getD 3 0,
     h.getD 4 0, h.getD 5 0, h.getD 6 0, h.getD 7 0)
  let (a, b, c, d, e, f, g, hh) := st
  [m32 (h.getD 0 0 + a), m32 (h.getD 1 0 + b), m32 (h.getD 2 0 + c), m32 (h.getD 3 0 + d),
   m32 (h.getD 4 0 + e), m32 (h.getD 5 0 + f), m32 (h.getD 6 0 + g), m32 (h.getD 7 0 + hh)]

/-- Split a byte list into 64-byte chunks (first argument is fuel). -/
def chunks64 : Nat → List Nat → List (List Nat)
  | 0, _ => []
  | _ + 1, [] => []
  | fuel + 1, l => l.take 64 :: chunks64 fuel (l.drop 64)

/-- The eight 32-bit words of the SHA-256 digest of a byte list. -/
def sha256words (msg : List Nat) : List Nat :=
  let padded := shaPad msg
  (chunks64 padded.length padded).foldl shaCompress shaH0

/-- Lowercase hex digit, as produced by encoding/hex. -/
def hexDigit (n : Nat) : Char := if n < 10 then Char.ofNat (48 + n) else Char.ofNat (87 + n)

/-- Lowercase hex of one 32-bit word. -/
def word32hex (w : Nat) : List Char := (List.range 8).map (fun i => hexDigit ((w >>> (4 * (7 - i))) % 16))

/-- hex.EncodeToString(sha256 digest): the lowercase hex SHA-256 of a byte list. -/
def sha256hex (msg : List Nat) : String := String.mk ((sha256words msg).flatMap word32hex)

example : sha256hex [] = "e3b0c44298fc1c149afbf4c8996fb92427ae41e4649b934ca495991b7852b855" := by decide

example : sha256hex [97, 98, 99] =
    "ba7816bf8f01cfea414140de5dae2223b00361a396177a9cb410ff61f20015ad" := by decide

/-! ## Go string helpers used by the downloader

Modelled over lists of characters; the engine's inputs (URLs, crate names,
hex digests) are ASCII, where Go's byte-wise operations coincide with
character-wise ones. -/

/-- strings.Split on a single separator character. -/
def splitOnChar (c : Char) : List Char → List (List Char)
  | [] => [[]]
  | x :: xs =>
    let r := splitOnChar c xs
    if x = c then [] :: r
    else
      match r with
      | h :: t => (x :: h) :: t
      | [] => [[x]]

/-- The suffix after the last slash (u[LastIndex(u, "/")+1:]); the whole
string when there is no slash. -/
def afterLastSlash (l : List Char) : List Char := (splitOnChar '/' l).getLastD []

/-- The suffix after the first occurrence of "://", if any. -/
def afterScheme : List Char → Option (List Char)
  | ':' :: '/' :: '/' :: rest => some rest
  | _ :: rest => afterScheme rest
  | [] => none

/-- The suffix after the first slash, if any. -/
def afterFirstSlash : List Char → Option (List Char)
  | '/' :: rest => some rest
  | _ :: rest => afterFirstSlash rest
  | [] => none

/-- ASCII fragment of unicode.IsSpace, as used by strings.TrimSpace. -/
def isSpaceChar (c : Char) : Bool :=
  c = ' ' || c = '\t' || c = '\n' || c = '\r' || c.toNat = 11 || c.toNat = 12

/-- strings.TrimSpace (ASCII inputs). -/
def trimSpace (l : List Char) : List Char :=
  ((l.dropWhile isSpaceChar).reverse.dropWhile isSpaceChar).reverse

/-- strings.ReplaceAll(s, "..", "_"): non-overlapping left-to-right. -/
def replaceDotDot : List Char → List Char
  | '.' :: '.' :: rest => '_' :: replaceDotDot rest
  | c :: rest => c :: replaceDotDot rest
  | [] => []

/-- strings.ReplaceAll with a single-character pattern. -/
def replaceChar (a b : Char) (l : List Char) : List Char :=
  l.map (fun c => if c = a then b else c)

/-- sanitizeName: last path segment of the URL, trimmed and lightly
sanitized; hex of sha256.New().Sum(nil) (the empty-input digest) as
fallback. -/
def sanitizeName (u : List Char) : List Char :=
  let seg := trimSpace (afterLastSlash u)
  if seg = [] ∨ seg = ['/'] then (sha256hex []).toList
  else replaceChar '&' '_' (replaceChar '?' '_' (replaceDotDot seg))

/-- crateNameFromURL: strip the scheme and the host, then the
second-to-last slash-separated segment (empty when fewer than two
segments remain). -/
def crateNameFromURL (u : List Char) : List Char :=
  let rest := (afterScheme u).getD u
  let rest := (afterFirstSlash rest).getD rest
  let parts := splitOnChar '/' rest
  if 2 ≤ parts.length then parts.getD (parts.length - 2) [] else []

/-- A filesystem path, one list entry per filepath.Join component. -/
abbrev GoPath := List String

/-- crateDirFor (internal/downloader): the two-level shard directory for a
crate name. -/
def crateDirFor (crateName : List Char) (outDir : GoPath) : GoPath :=
  if crateName = [] then outDir
  else
    let name := crateName
    if name.length ≤ 3 then outDir ++ [String.mk name]
    else
      let firstDir :=
        if name.headD ' ' = '1' ∨ name.headD ' ' = '2' ∨ name.headD ' ' = '3' then
          name.take 1
        else
          if 2 ≤ name.length ∧ 1 < name.length ∧ name.getD 1 ' ' = '-' then name.take 2
          else name.take 1
      let secondDir := (name.drop firstDir.length).take 2
      outDir ++ [String.mk firstDir, String.mk secondDir]

/-- CrateDirFor (internal/sidecar): the sidecar generator's copy of the
shard rule. -/
def CrateDirFor (crateName : List Char) (outDir : GoPath) : GoPath :=
  if crateName = [] then outDir
  else
    let name := crateName
    if name.length ≤ 3 then outDir ++ [String.mk name]
    else
      let firstDir :=
        if name.headD ' ' = '1' ∨ name.headD ' ' = '2' ∨ name.headD ' ' = '3' then
          name.take 1
        else
          if 2 ≤ name.length ∧ 1 < name.length ∧ name.getD 1 ' ' = '-' then name.take 2
          else name.take 1
      let secondDir := (name.drop firstDir.length).take 2
      outDir ++ [String.mk firstDir, String.mk secondDir]

/-! ## Go map of checksums (url -> lowercase hex sha256) -/

/-- Go map insertion, observed through mapLookup: the newest binding for a
key shadows older ones. -/
def mapInsert (m : List (String × String)) (k v : String) : List (String × String) :=
  (k, v) :: m

/-- Go map lookup: the most recent binding, if any. -/
def mapLookup (m : List (String × String)) (k : String) : Option String :=
  (m.find? (fun p => p.1 == k)).map (fun p => p.2)

/-- ASCII lowercasing of one character. -/
def asciiLowerChar (c : Char) : Char :=
  if 'A' ≤ c ∧ c ≤ 'Z' then Char.ofNat (c.toNat + 32) else c

/-- strings.ToLower restricted to ASCII, as applies to hex digests. -/
def strToLower (s : String) : String := String.mk (s.toList.map asciiLowerChar)

/-- strings.EqualFold restricted to ASCII, as applies to hex digests. -/
def eqFold (a b : String) : Bool := strToLower a == strToLower b

/-- ChecksumEntry: the parsed line format of the external checksum JSONL
file. -/
structure ChecksumEntry where
  url : String
  sha256 : String
deriving DecidableEq

/-- ReadChecksums on the sequence of parsed lines (none models a line
json.Unmarshal rejects, which the code skips): entries with empty url or
sha256 are dropped, values are lowercased, later lines overwrite earlier
ones. -/
def ReadChecksums (lines : List (Option ChecksumEntry)) : List (String × String) :=
  lines.foldl
    (fun out l =>
      match l with
      | none => out
      | some ce =>
        if ce.url ≠ "" ∧ ce.sha256 ≠ "" then mapInsert out ce.url (strToLower ce.sha256) else out)
    []

/-- The valid entries of a checksum input: parsed lines with both fields
nonempty (the ones the fold keeps). -/
def validEntries (lines : List (Option ChecksumEntry)) : List ChecksumEntry :=
  (lines.filterMap id).filter (fun ce => decide (ce.url ≠ "") && decide (ce.sha256 ≠ ""))

/-! ## Filesystem model

An association list from paths to byte contents.  Operations model os.Create
(truncating write), os.Remove and os.Rename as always succeeding; the engine's
error branches for local I/O failures are outside the model. -/

/-- The filesystem state. -/
structure FS where
  files : List (GoPath × List Nat)
deriving DecidableEq

def emptyFS : FS := ⟨[]⟩

/-- Content of the file at a path, if present. -/
def FS.lookup (fs : FS) (p : GoPath) : Option (List Nat) :=
  (fs.files.find? (fun e => decide (e.1 = p))).map (fun e => e.2)

/-- os.Remove: drop the file at a path. -/
def FS.eraseP (fs : FS) (p : GoPath) : FS :=
  ⟨fs.files.filter (fun e => decide (e.1 ≠ p))⟩

/-- os.Create + writes: (re)create the file at a path with given contents. -/
def FS.write (fs : FS) (p : GoPath) (v : List Nat) : FS :=
  ⟨(p, v) :: (fs.eraseP p).files⟩

/-- os.Rename: move src over dst (overwriting dst), a no-op when src is
absent (the model never renames an absent file). -/
def FS.rename (fs : FS) (src dst : GoPath) : FS :=
  match fs.lookup src with
  | none => fs
  | some v => (fs.eraseP src).write dst v

/-! ## HTTP attempt model and the retry loop of fetchOne -/

/-- How reading a 200 response body went: fully streamed, or failed midway
with some bytes already copied to the temp file (isCtx: the error satisfies
errors.Is(err, context.Canceled) or context.DeadlineExceeded). -/
inductive BodyRead where
  | ok (bytes : List Nat)
  | fail (part : List Nat) (isCtx : Bool)
deriving DecidableEq

/-- Outcome of one d.client.Do attempt: a transport error or a response
with a status code and a body. -/
inductive HttpResp where
  | err (isCtx : Bool)
  | resp (code : Nat) (body : BodyRead)
deriving DecidableEq

/-- The kind held by lastErr. -/
inductive ErrK where
  | net (isCtx : Bool)
  | http (code : Nat)
  | copy (isCtx : Bool)
deriving DecidableEq

def ErrK.isCtxErr : ErrK → Bool
  | .net c => c
  | .copy c => c
  | .http _ => false

/-- The error text recorded in the manifest (the HTTP case mirrors
fmt.Errorf("HTTP %d", code); transport and read errors carry free text). -/
def ErrK.msg : ErrK → String
  | .net _ => "net error"
  | .copy _ => "read error"
  | .http code => "HTTP " ++ toString code

/-- The retryable-status test of fetchOne: 408/425/429 or >= 500. -/
def retryableStatus (code : Nat) : Bool :=
  code == 408 || code == 425 || code == 429 || decide (500 ≤ code)

/-- Control outcome of one attempt: success (break), a non-retryable HTTP
status (break), or a failure that reaches the backoff/retry logic. -/
inductive AttemptClass where
  | success (bytes : List Nat)
  | stop (e : ErrK)
  | failCont (e : ErrK)
deriving DecidableEq

def classify : HttpResp → AttemptClass
  | .err isCtx => .failCont (.net isCtx)
  | .resp code body =>
    if code = 200 then
      match body with
      | .ok bytes => .success bytes
      | .fail _ isCtx => .failCont (.copy isCtx)
    else if retryableStatus code then .failCont (.http code)
    else .stop (.http code)

/-- Filesystem effect of one attempt, starting from fs1 in which the temp
file has just been created empty.  A transport error and a non-200 status
remove the temp file; a successful body is renamed onto the target; a body
read that fails midway leaves the partial temp file in place (the code
closes the file but has no os.Remove on that path). -/
def attemptFS (fs1 : FS) (tmpPath outPath : GoPath) : HttpResp → FS
  | .err _ => fs1.eraseP tmpPath
  | .resp code body =>
    if code = 200 then
      match body with
      | .ok bytes => (fs1.write tmpPath bytes).rename tmpPath outPath
      | .fail part _ => fs1.write tmpPath part
    else fs1.eraseP tmpPath

/-- A failure on which the loop would move on to the next attempt
(not context cancellation, not a non-retryable status, not success). -/
def retryFails (r : HttpResp) : Bool :=
  match classify r with
  | .failCont e => !e.isCtxErr
  | _ => false

/-- Two's-complement reading of x mod 2^64 (Go int64 arithmetic). -/
def wrap64 (x : Int) : Int :=
  let m := x % (18446744073709551616 : Int)
  if m < 9223372036854775808 then m else m - 18446744073709551616

/-- The backoff sleep scheduled after a retryable failure on attempt k
(1-based), in nanoseconds: back := base << (k-1) (int64), clamped to cap,
times the jitter 0.5 + (t & 0x3ff)/1024 drawn from the clock t, the float
product truncated to a Duration.  The float arithmetic is exact whenever
|back| * 1536 < 2^53, which covers every non-overflowing clamped value up to
~95 minutes; outside that range the model's exact integer value is a
same-sign approximation of the float result. -/
def backoffSleep (base cap : Int) (k : Nat) (t : Nat) : Int :=
  let back := wrap64 (base * 2 ^ (k - 1))
  let back := if back > cap then cap else back
  (back * (512 + ((t &&& 1023 : Nat) : Int))).tdiv 1024

/-- Result of the retry loop. -/
structure LoopOut where
  fs : FS
  lastErr : Option ErrK
  n : Nat
  attemptCnt : Nat
  calls : Nat
  sleeps : List (Nat × Int)
deriving DecidableEq

/-- The retry loop of fetchOne.  k is the current 1-based attempt number,
rem the number of attempts still allowed after this one (attempts - k);
calls counts d.client.Do invocations and sleeps records the scheduled
backoffs as (attempt, nanoseconds). -/
def fetchLoop (oracle : Nat → HttpResp) (now : Nat → Nat) (base cap : Int)
    (tmpPath outPath : GoPath) (k : Nat) (rem : Nat) (fs : FS) (calls : Nat)
    (sleeps : List (Nat × Int)) : LoopOut :=
  let fs1 := fs.write tmpPath []
  let r := oracle k
  let fs2 := attemptFS fs1 tmpPath outPath r
  match classify r with
  | .success bytes =>
    { fs := fs2, lastErr := none, n := bytes.length, attemptCnt := k, calls := calls + 1,
      sleeps := sleeps }
  | .stop e =>
    { fs := fs2, lastErr := some e, n := 0, attemptCnt := k, calls := calls + 1,
      sleeps := sleeps }
  | .failCont e =>
    if e.isCtxErr then
      { fs := fs2, lastErr := some e, n := 0, attemptCnt := k, calls := calls + 1,
        sleeps := sleeps }
    else
      match rem with
      | 0 =>
        { fs := fs2, lastErr := some e, n := 0, attemptCnt := k, calls := calls + 1,
          sleeps := sleeps }
      | rem' + 1 =>
        fetchLoop oracle now base cap tmpPath outPath (k + 1) rem' fs2 (calls + 1)
          (sleeps ++ [(k, backoffSleep base cap k (now k))])

/-! ## verifyFile, fetchOne, Run -/

/-- Retry configuration of the Downloader (NewDownloader defaults: 6
attempts, 500 ms base, 30 s cap; a non-positive Go retries value behaves
like 0 here, both yielding a single attempt). -/
structure Cfg where
  retries : Nat
  retryBaseNs : Int
  retryMaxNs : Int

def defaultCfg : Cfg := { retries := 6, retryBaseNs := 500000000, retryMaxNs := 30000000000 }

/-- verifyFile: hash the file; when an expected (nonempty) checksum is
known for the url compare case-insensitively, else report true; a missing
file reports (false, ""). -/
def verifyFile (checks : List (String × String)) (fs : FS) (path : GoPath) (url : String) :
    Bool × String :=
  match fs.lookup path with
  | none => (false, "")
  | some content =>
    let got := sha256hex content
    match mapLookup checks url with
    | some want => if want ≠ "" then (eqFold want got, got) else (true, got)
    | none => (true, got)

/-- The target path fetchOne resolves for a url:
crateDirFor(crateNameFromURL(url)) joined with sanitizeName(url). -/
def outPathFor (outDir : GoPath) (url : String) : GoPath :=
  crateDirFor (crateNameFromURL url.toList) outDir ++ [String.mk (sanitizeName url.toList)]

/-- The sibling temp path outPath + ".part". -/
def tmpPathFor (outDir : GoPath) (url : String) : GoPath :=
  crateDirFor (crateNameFromURL url.toList) outDir ++
    [String.mk (sanitizeName url.toList) ++ ".part"]

/-- One manifest Record (timestamps omitted: wall-clock time is not
modelled).  path = [] models Go's empty Path string. -/
structure Rec where
  schemaVersion : Nat := 1
  url : String
  path : GoPath := []
  size : Nat := 0
  sha256 : String := ""
  ok : Bool := false
  error : String := ""
  retries : Nat := 0
  status : String := ""
deriving DecidableEq

/-- Result of fetchOne: the Record, the filesystem afterwards, the number
of HTTP requests issued, and the backoff sleeps scheduled.  The bundler
hand-off on success only reads the artifact and writes under the separate
bundles directory, so it is modelled apart (see BundlerSt). -/
structure FetchOut where
  record : Rec
  fs : FS
  calls : Nat
  sleeps : List (Nat × Int)
deriving DecidableEq

/-- The download half of fetchOne: the retry loop, then checksum
verification and Record assembly. -/
def fetchDownload (cfg : Cfg) (checks : List (String × String)) (outDir : GoPath)
    (oracle : Nat → HttpResp) (now : Nat → Nat) (url : String) (fs : FS) : FetchOut :=
  let outPath := outPathFor outDir url
  let tmpPath := tmpPathFor outDir url
  let A := max 1 cfg.retries
  let lo := fetchLoop oracle now cfg.retryBaseNs cfg.retryMaxNs tmpPath outPath 1 (A - 1) fs 0 []
  match lo.lastErr with
  | some e =>
    { record := { url := url, error := e.msg, status := "error", retries := lo.attemptCnt - 1 },
      fs := lo.fs, calls := lo.calls, sleeps := lo.sleeps }
  | none =>
    let v := verifyFile checks lo.fs outPath url
    { record := { url := url, path := outPath, size := lo.n, sha256 := v.2, ok := v.1,
                  error := if v.1 then "" else "checksum mismatch",
                  status := if v.1 then "ok" else "error",
                  retries := lo.attemptCnt - 1 },
      fs := lo.fs, calls := lo.calls, sleeps := lo.sleeps }

/-- fetchOne: resolve the target path; if the file exists and verifies,
emit the resume Record without any HTTP request; otherwise download. -/
def fetchOne (cfg : Cfg) (checks : List (String × String)) (outDir : GoPath)
    (oracle : Nat → HttpResp) (now : Nat → Nat) (url : String) (fs : FS) : FetchOut :=
  let outPath := outPathFor outDir url
  match fs.lookup outPath with
  | some _ =>
    if (verifyFile checks fs outPath url).1 then
      { record := { url := url, path := outPath, ok := true, status := "ok" },
        fs := fs, calls := 0, sleeps := [] }
    else fetchDownload cfg checks outDir oracle now url fs
  | none => fetchDownload cfg checks outDir oracle now url fs

/-- One descriptor fed to the engine: the url together with the attempt
oracles of its fetch. -/
structure UrlTask where
  url : String
  oracle : Nat → HttpResp
  now : Nat → Nat

/-- Run: the engine's per-descriptor pipeline.  Workers run fetchOne once
per url pulled from the queue and the result collector appends each Record
to the manifest; the model sequences the fetches (the counting and per-url
properties proved about it are order-independent). -/
def Run (cfg : Cfg) (checks : List (String × String)) (outDir : GoPath) :
    List UrlTask → FS → List Rec × FS
  | [], fs => ([], fs)
  | t :: ts, fs =>
    let fo := fetchOne cfg checks outDir t.oracle t.now t.url fs
    let rest := Run cfg checks outDir ts fo.fs
    (fo.record :: rest.1, rest.2)

/-! ## Rolling Bundler model

The writer stack (file, zstd encoder, tar writer) is modelled by the list of
bundle files created so far, newest first, each holding its tar entries
(newest first).  Closing the stack is I/O with no further state effect, so
rotateLocked's state content is: push a fresh bundle named by the current
index, reset the byte count, advance the index. -/

/-- One tar entry written by AddFile (mode 0644, zero mtime, uid/gid 0 are
constants in the source and omitted). -/
structure TarEntry where
  name : String
  size : Nat
deriving DecidableEq

/-- Bundler state. -/
structure BundlerSt where
  enabled : Bool
  targetBytes : Nat
  currentIdx : Nat
  currentBytes : Nat
  bundles : List (Nat × List TarEntry)
deriving DecidableEq

/-- The filename of bundle i: fmt.Sprintf("bundle-%04d.tar.zst", i). -/
def bundleName (i : Nat) : String :=
  let s := toString i
  let pad := if s.length < 4 then String.mk (List.replicate (4 - s.length) '0') else ""
  "bundle-" ++ pad ++ s ++ ".tar.zst"

/-- rotateLocked: close the current writer stack and open bundle
currentIdx, resetting the byte count and advancing the index. -/
def rotateLocked (b : BundlerSt) : BundlerSt :=
  if !b.enabled then b
  else
    { b with
      bundles := (b.currentIdx, []) :: b.bundles
      currentBytes := 0
      currentIdx := b.currentIdx + 1 }

/-- NewBundler: a disabled stub, or an enabled bundler with
targetBytes = targetGB << 30 and bundle-0000 already open. -/
def newBundler (enabled : Bool) (targetGB : Nat) : BundlerSt :=
  if !enabled then
    { enabled := false, targetBytes := 0, currentIdx := 0, currentBytes := 0, bundles := [] }
  else
    rotateLocked
      { enabled := true, targetBytes := targetGB * 1073741824, currentIdx := 0,
        currentBytes := 0, bundles := [] }

/-- AddFile: under the mutex, rotate when currentBytes + size would exceed
targetBytes, then append the tar entry to the current bundle and advance
the byte count by the bytes copied. -/
def addFile (b : BundlerSt) (size : Nat) (headerName : String) : BundlerSt :=
  if !b.enabled then b
  else
    let b := if b.currentBytes + size > b.targetBytes then rotateLocked b else b
    match b.bundles with
    | (i, es) :: rest =>
      { b with bundles := (i, ⟨headerName, size⟩ :: es) :: rest,
               currentBytes := b.currentBytes + size }
    | [] => b

/-- A run of an enabled bundler: NewBundler followed by the AddFile calls
the workers hand off, as (size, headerName) pairs. -/
def runBundler (targetGB : Nat) (ops : List (Nat × String)) : BundlerSt :=
  ops.foldl (fun b op => addFile b op.1 op.2) (newBundler true targetGB)

/-! ## Concrete fixtures shared by witnesses and counterexamples -/

def exUrl : String := "https://static.crates.io/crates/serde/serde-1.0.0.crate"

def exOut : GoPath := ["out"]

def exContent : List Nat := [104, 105]

def exChecks : List (String × String) := [(exUrl, sha256hex exContent)]

def exFS : FS := emptyFS.write (outPathFor exOut exUrl) exContent

/-! ## Helper lemmas -/

theorem find?_filter_ne (l : List (GoPath × List Nat)) (p : GoPath) :
    (l.filter (fun e => decide (e.1 ≠ p))).find? (fun e => decide (e.1 = p)) = none := by
  induction l with
  | nil => rfl
  | cons e t ih =>
    by_cases h : e.1 = p
    · simp [List.filter_cons, h, ih]
    · simp [List.filter_cons, h, List.find?_cons, ih]

theorem FS.lookup_eraseP_self (fs : FS) (p : GoPath) : (fs.eraseP p).lookup p = none := by
  unfold FS.lookup FS.eraseP
  rw [find?_filter_ne]
  rfl

theorem fetchOne_url (cfg : Cfg) (checks : List (String × String)) (outDir : GoPath)
    (oracle : Nat → HttpResp) (now : Nat → Nat) (url : String) (fs : FS) :
    (fetchOne cfg checks outDir oracle now url fs).record.url = url := by
  simp only [fetchOne, fetchDownload]
  repeat' split <;> try rfl

/-- verifyFile reporting true: the file is present, the returned digest is
its SHA-256, and any nonempty expected hash matches it case-insensitively. -/
theorem verifyFile_true (checks : List (String × String)) (fs : FS) (p : GoPath) (url : String)
    (h : (verifyFile checks fs p url).1 = true) :
    ∃ content, fs.lookup p = some content ∧
      (verifyFile checks fs p url).2 = sha256hex content ∧
      ∀ w, mapLookup checks url = some w → w ≠ "" → eqFold w (sha256hex content) = true := by
  rcases hl : fs.lookup p with _ | content
  · exfalso
    unfold verifyFile at h
    rw [hl] at h
    simp at h
  · have hv : verifyFile checks fs p url =
        (match mapLookup checks url with
         | some want =>
           if want ≠ "" then (eqFold want (sha256hex content), sha256hex content)
           else (true, sha256hex content)
         | none => (true, sha256hex content)) := by
      unfold verifyFile
      rw [hl]
    rcases hw : mapLookup checks url with _ | w
    · rw [hw] at hv
      refine ⟨content, rfl, by rw [hv], ?_⟩
      intro w2 hw2
      cases hw2
    · rw [hw] at hv
      dsimp only at hv
      by_cases hempty : w = ""
      · rw [if_neg (by simp [hempty])] at hv
        refine ⟨content, rfl, by rw [hv], ?_⟩
        intro w2 hw2 hne2
        injection hw2 with hw2
        exact absurd (hw2.symm.trans hempty) hne2
      · rw [if_pos hempty] at hv
        refine ⟨content, rfl, by rw [hv], ?_⟩
        intro w2 hw2 _
        injection hw2 with hw2
        rw [hv] at h
        rw [← hw2]
        exact h

/-- C1: For every list of URLs processed by one run of the engine
(Downloader.Run), exactly one Record is emitted to the manifest per input
URL — counted per url value with multiplicity — so the number of manifest
records written by the result collector equals the length of the input
list. -/
theorem Run_one_record_per_url (cfg : Cfg) (checks : List (String × String)) (outDir : GoPath)
    (ts : List UrlTask) (fs : FS) :
    (Run cfg checks outDir ts fs).1.length = ts.length ∧
    ∀ u : String,
      ((Run cfg checks outDir ts fs).1.filter (fun r => r.url == u)).length
        = (ts.filter (fun t => t.url == u)).length := by
  induction ts generalizing fs with
  | nil => simp [Run]
  | cons t ts ih =>
    refine ⟨by simp [Run, (ih _).1], ?_⟩
    intro u
    have hu := fetchOne_url cfg checks outDir t.oracle t.now t.url fs
    by_cases h : t.url = u
    · subst h
      simp [Run, List.filter_cons, hu, (ih _).2 t.url]
    · simp [Run, List.filter_cons, hu, h, (ih _).2 u]

/-- C5: the shard-path resolver maps a crate name to the name itself when
its length is at most 3; otherwise to first shard = the first character
when the name starts with 1, 2 or 3, the first two characters when the
second character is a dash, and the first character otherwise, followed by
a second shard of the next two characters (clamped by the end of the
name); and the sidecar generator's CrateDirFor implements the same rule. -/
theorem crateDirFor_shard_rule (name : List Char) (outDir : GoPath) (h : name ≠ []) :
    CrateDirFor name outDir = crateDirFor name outDir ∧
    (name.length ≤ 3 → crateDirFor name outDir = outDir ++ [String.mk name]) ∧
    (3 < name.length →
      ((name.headD ' ' = '1' ∨ name.headD ' ' = '2' ∨ name.headD ' ' = '3') →
        crateDirFor name outDir
          = outDir ++ [String.mk (name.take 1), String.mk ((name.drop 1).take 2)]) ∧
      (¬(name.headD ' ' = '1' ∨ name.headD ' ' = '2' ∨ name.headD ' ' = '3') →
        name.getD 1 ' ' = '-' →
        crateDirFor name outDir
          = outDir ++ [String.mk (name.take 2), String.mk ((name.drop 2).take 2)]) ∧
      (¬(name.headD ' ' = '1' ∨ name.headD ' ' = '2' ∨ name.headD ' ' = '3') →
        ¬name.getD 1 ' ' = '-' →
        crateDirFor name outDir
          = outDir ++ [String.mk (name.take 1), String.mk ((name.drop 1).take 2)])) := by
  refine ⟨rfl, ?_, ?_⟩
  · intro h3
    unfold crateDirFor
    rw [if_neg h, if_pos h3]
  · intro h3
    have hlen3 : ¬name.length ≤ 3 := by omega
    have ht1 : (name.take 1).length = 1 := by
      simp [List.length_take]; omega
    have ht2 : (name.take 2).length = 2 := by
      simp [List.length_take]; omega
    refine ⟨?_, ?_, ?_⟩
    · intro hd
      unfold crateDirFor
      rw [if_neg h, if_neg hlen3, if_pos hd]
      simp only [ht1]
    · intro hd hdash
      have hcond : 2 ≤ name.length ∧ 1 < name.length ∧ name.getD 1 ' ' = '-' :=
        ⟨by omega, by omega, hdash⟩
      unfold crateDirFor
      rw [if_neg h, if_neg hlen3, if_neg hd, if_pos hcond]
      simp only [ht2]
    · intro hd hdash
      have hcond : ¬(2 ≤ name.length ∧ 1 < name.length ∧ name.getD 1 ' ' = '-') := by
        intro hc; exact hdash hc.2.2
      unfold crateDirFor
      rw [if_neg h, if_neg hlen3, if_neg hd, if_neg hcond]
      simp only [ht1]

/-- Witness for C5 at the spec's example: the name x-ray resolves to the
shards x- and ra under outDir. -/
theorem crateDirFor_x_ray_witness :
    crateDirFor "x-ray".toList ["out"] = ["out", "x-", "ra"] := by
  have h := (crateDirFor_shard_rule "x-ray".toList ["out"] (by decide)).2.2 (by decide)
  have h2 := h.2.1 (by decide) (by decide)
  exact h2.trans (by decide)

/-- A download-path Record with ok=true: the downloaded file is at the
Record's path, the Record's sha256 is its hash, and any nonempty expected
hash matches case-insensitively. -/
theorem fetchDownload_ok (cfg : Cfg) (checks : List (String × String)) (outDir : GoPath)
    (oracle : Nat → HttpResp) (now : Nat → Nat) (url : String) (fs : FS)
    (h : (fetchDownload cfg checks outDir oracle now url fs).record.ok = true) :
    ∃ content,
      (fetchDownload cfg checks outDir oracle now url fs).fs.lookup
          (fetchDownload cfg checks outDir oracle now url fs).record.path = some content ∧
      (fetchDownload cfg checks outDir oracle now url fs).record.sha256 = sha256hex content ∧
      ∀ w, mapLookup checks url = some w → w ≠ "" → eqFold w (sha256hex content) = true := by
  simp only [fetchDownload] at h ⊢
  rcases hle : (fetchLoop oracle now cfg.retryBaseNs cfg.retryMaxNs (tmpPathFor outDir url)
      (outPathFor outDir url) 1 (max 1 cfg.retries - 1) fs 0 []).lastErr with _ | e
  · rw [hle] at h
    dsimp only at h ⊢
    obtain ⟨content, hc, hsum, hmatch⟩ := verifyFile_true _ _ _ _ h
    exact ⟨content, hc, hsum, hmatch⟩
  · rw [hle] at h
    dsimp only at h
    cases h

/-- C2 (amended): for every Record returned by fetchOne with ok=true and
status ok, the file at the Record's path exists and either the Record's
sha256 equals the file's SHA-256 digest (download path) or the Record's
sha256 is empty (the resume-skip path leaves the field empty); and
whenever a nonempty expected hash for the URL is present in the Checksum
Index, ok=true implies the file's hash equals the expected hash up to
ASCII case. -/
theorem fetchOne_ok_hash (cfg : Cfg) (checks : List (String × String)) (outDir : GoPath)
    (oracle : Nat → HttpResp) (now : Nat → Nat) (url : String) (fs : FS)
    (hok : (fetchOne cfg checks outDir oracle now url fs).record.ok = true)
    (_hst : (fetchOne cfg checks outDir oracle now url fs).record.status = "ok") :
    ∃ content,
      (fetchOne cfg checks outDir oracle now url fs).fs.lookup
          (fetchOne cfg checks outDir oracle now url fs).record.path = some content ∧
      ((fetchOne cfg checks outDir oracle now url fs).record.sha256 = sha256hex content ∨
        (fetchOne cfg checks outDir oracle now url fs).record.sha256 = "") ∧
      ∀ w, mapLookup checks url = some w → w ≠ "" → eqFold w (sha256hex content) = true := by
  simp only [fetchOne] at hok ⊢
  rcases hl : fs.lookup (outPathFor outDir url) with _ | c0
  · rw [hl] at hok
    dsimp only at hok ⊢
    obtain ⟨content, hc, hsum, hmatch⟩ := fetchDownload_ok cfg checks outDir oracle now url fs hok
    exact ⟨content, hc, Or.inl hsum, hmatch⟩
  · rw [hl] at hok
    dsimp only at hok ⊢
    by_cases hv : (verifyFile checks fs (outPathFor outDir url) url).1 = true
    · rw [if_pos hv] at hok ⊢
      obtain ⟨content, hc, _, hmatch⟩ := verifyFile_true _ _ _ _ hv
      exact ⟨content, hc, Or.inr rfl, hmatch⟩
    · rw [if_neg hv] at hok ⊢
      obtain ⟨content, hc, hsum, hmatch⟩ :=
        fetchDownload_ok cfg checks outDir oracle now url fs hok
      exact ⟨content, hc, Or.inl hsum, hmatch⟩

/-- Witness for C2 at a concrete successful download: the body [104, 105]
is fetched, verified against its expected hash and recorded. -/
theorem fetchOne_ok_hash_witness :
    ∃ content,
      (fetchOne defaultCfg exChecks exOut (fun _ => .resp 200 (.ok exContent)) (fun _ => 0)
          exUrl emptyFS).fs.lookup
        (fetchOne defaultCfg exChecks exOut (fun _ => .resp 200 (.ok exContent)) (fun _ => 0)
          exUrl emptyFS).record.path = some content ∧
      ((fetchOne defaultCfg exChecks exOut (fun _ => .resp 200 (.ok exContent)) (fun _ => 0)
          exUrl emptyFS).record.sha256 = sha256hex content ∨
        (fetchOne defaultCfg exChecks exOut (fun _ => .resp 200 (.ok exContent)) (fun _ => 0)
          exUrl emptyFS).record.sha256 = "") ∧
      ∀ w, mapLookup exChecks exUrl = some w → w ≠ "" →
        eqFold w (sha256hex content) = true :=
  fetchOne_ok_hash defaultCfg exChecks exOut (fun _ => .resp 200 (.ok exContent)) (fun _ => 0)
    exUrl emptyFS (by decide) (by decide)

/-- Counterexample for C2 as stated: the resume-skip path returns a Record
with ok=true and status ok whose sha256 field is empty, while the file at
the Record's path hashes to a nonempty digest — so hashing the file does
not yield the Record's sha256. -/
theorem fetchOne_skip_sha256_counterexample :
    (fetchOne defaultCfg exChecks exOut (fun _ => .resp 500 (.ok [])) (fun _ => 0)
        exUrl exFS).record.ok = true ∧
    (fetchOne defaultCfg exChecks exOut (fun _ => .resp 500 (.ok [])) (fun _ => 0)
        exUrl exFS).record.status = "ok" ∧
    (fetchOne defaultCfg exChecks exOut (fun _ => .resp 500 (.ok [])) (fun _ => 0)
        exUrl exFS).fs.lookup
      (fetchOne defaultCfg exChecks exOut (fun _ => .resp 500 (.ok [])) (fun _ => 0)
        exUrl exFS).record.path = some exContent ∧
    (fetchOne defaultCfg exChecks exOut (fun _ => .resp 500 (.ok [])) (fun _ => 0)
        exUrl exFS).record.sha256 = "" ∧
    sha256hex exContent ≠ "" := by
  refine ⟨by decide, by decide, by decide, by decide, by decide⟩

/-- C3 (amended): when the target file already exists at the resolved path
and its SHA-256 matches the known (nonempty) expected hash, fetchOne
performs zero HTTP requests for that descriptor and emits one Record with
ok=true — whose status field is "ok" (the skip is visible only in the
metrics counter labelled skipped, not in the manifest status). -/
theorem fetchOne_resume_skip (cfg : Cfg) (checks : List (String × String)) (outDir : GoPath)
    (oracle : Nat → HttpResp) (now : Nat → Nat) (url : String) (fs : FS)
    (c : List Nat) (w : String)
    (hc : fs.lookup (outPathFor outDir url) = some c)
    (hw : mapLookup checks url = some w)
    (hwne : w ≠ "")
    (hmatch : eqFold w (sha256hex c) = true) :
    fetchOne cfg checks outDir oracle now url fs =
      { record := { url := url, path := outPathFor outDir url, ok := true, status := "ok" },
        fs := fs, calls := 0, sleeps := [] } := by
  have hv : (verifyFile checks fs (outPathFor outDir url) url).1 = true := by
    unfold verifyFile
    rw [hc, hw]
    dsimp only
    rw [if_pos hwne]
    exact hmatch
  simp only [fetchOne]
  rw [hc]
  dsimp only
  rw [if_pos hv]

/-- Witness for C3 (amended) at a concrete pre-populated file with a
matching expected hash. -/
theorem fetchOne_resume_skip_witness :
    fetchOne defaultCfg exChecks exOut (fun _ => .resp 500 (.ok [])) (fun _ => 0) exUrl exFS =
      { record := { url := exUrl, path := outPathFor exOut exUrl, ok := true, status := "ok" },
        fs := exFS, calls := 0, sleeps := [] } :=
  fetchOne_resume_skip defaultCfg exChecks exOut (fun _ => .resp 500 (.ok [])) (fun _ => 0)
    exUrl exFS exContent (sha256hex exContent) (by decide) (by decide) (by decide) (by decide)

/-- Counterexample for C3 as stated: on the resume-skip path (file
present, expected hash known and matching, zero HTTP requests) the emitted
Record's status is "ok", not "skipped" — no Record with status "skipped"
is ever produced by the code. -/
theorem fetchOne_skip_status_counterexample :
    (fetchOne defaultCfg exChecks exOut (fun _ => .resp 500 (.ok [])) (fun _ => 0)
        exUrl exFS).calls = 0 ∧
    (fetchOne defaultCfg exChecks exOut (fun _ => .resp 500 (.ok [])) (fun _ => 0)
        exUrl exFS).record.ok = true ∧
    (fetchOne defaultCfg exChecks exOut (fun _ => .resp 500 (.ok [])) (fun _ => 0)
        exUrl exFS).record.status = "ok" ∧
    (fetchOne defaultCfg exChecks exOut (fun _ => .resp 500 (.ok [])) (fun _ => 0)
        exUrl exFS).record.status ≠ "skipped" := by
  refine ⟨by decide, by decide, by decide, by decide⟩

/-- C4 (code bug): when a 200 response's body read fails midway on the
final attempt, fetchOne returns with the partial temp file still on disk —
the io.Copy error branch closes the temp file but never removes it, so a
*.part file remains under the output tree after the engine returns,
contradicting the invariant.  Here every attempt yields HTTP 200 followed
by a mid-body failure with two bytes already written. -/
theorem fetchOne_body_error_leaves_part :
    (fetchOne defaultCfg [] exOut (fun _ => .resp 200 (.fail [7, 7] false)) (fun _ => 0)
        exUrl emptyFS).fs.lookup (tmpPathFor exOut exUrl) = some [7, 7] ∧
    (fetchOne defaultCfg [] exOut (fun _ => .resp 200 (.fail [7, 7] false)) (fun _ => 0)
        exUrl emptyFS).record.ok = false ∧
    (fetchOne defaultCfg [] exOut (fun _ => .resp 200 (.fail [7, 7] false)) (fun _ => 0)
        exUrl emptyFS).record.status = "error" := by
  refine ⟨by decide, by decide, by decide⟩

/-- C6: an HTTP status of 408, 425, 429 or at-least-500 is exactly what
fetchOne's per-attempt handling treats as retryable, while any other
non-200 status — in particular every other 4xx — stops retrying
immediately; a URL that always returns 404 yields exactly one attempt
(one HTTP request), a Record with ok=false, retries=0 and status error,
and no leftover temp file. -/
theorem retryable_classification_and_404 :
    (∀ code : Nat, retryableStatus code = true ↔
      (code = 408 ∨ code = 425 ∨ code = 429 ∨ 500 ≤ code)) ∧
    ∀ (cfg : Cfg) (checks : List (String × String)) (outDir : GoPath) (now : Nat → Nat)
      (url : String) (fs : FS),
      fs.lookup (outPathFor outDir url) = none →
      (fetchOne cfg checks outDir (fun _ => .resp 404 (.ok [])) now url fs).calls = 1 ∧
      (fetchOne cfg checks outDir (fun _ => .resp 404 (.ok [])) now url fs).record.ok = false ∧
      (fetchOne cfg checks outDir (fun _ => .resp 404 (.ok [])) now url fs).record.retries = 0 ∧
      (fetchOne cfg checks outDir (fun _ => .resp 404 (.ok [])) now url fs).record.status
        = "error" ∧
      (fetchOne cfg checks outDir (fun _ => .resp 404 (.ok [])) now url fs).fs.lookup
        (tmpPathFor outDir url) = none := by
  constructor
  · intro code
    simp only [retryableStatus, Bool.or_eq_true, beq_iff_eq, decide_eq_true_eq]
    tauto
  · intro cfg checks outDir now url fs h
    have hcl : classify (.resp 404 (.ok [])) = .stop (.http 404) := by decide
    have hloop : ∀ rem,
        fetchLoop (fun _ => .resp 404 (.ok [])) now cfg.retryBaseNs cfg.retryMaxNs
          (tmpPathFor outDir url) (outPathFor outDir url) 1 rem fs 0 [] =
        { fs := ((fs.write (tmpPathFor outDir url) []).eraseP (tmpPathFor outDir url)),
          lastErr := some (.http 404), n := 0, attemptCnt := 1, calls := 1, sleeps := [] } := by
      intro rem
      rw [fetchLoop]
      rw [hcl]
      simp [attemptFS]
    simp only [fetchOne]
    rw [h]
    dsimp only
    simp only [fetchDownload]
    rw [hloop]
    refine ⟨rfl, rfl, rfl, rfl, ?_⟩
    exact FS.lookup_eraseP_self _ _

/-- Witness for C6 at concrete inputs: 404 is not retryable while 503 is,
and the concrete 404 fetch makes one request and fails with zero
retries. -/
theorem retryable_classification_404_witness :
    retryableStatus 404 = false ∧ retryableStatus 503 = true ∧
    (fetchOne defaultCfg [] exOut (fun _ => .resp 404 (.ok [])) (fun _ => 0)
        exUrl emptyFS).calls = 1 ∧
    (fetchOne defaultCfg [] exOut (fun _ => .resp 404 (.ok [])) (fun _ => 0)
        exUrl emptyFS).record.ok = false ∧
    (fetchOne defaultCfg [] exOut (fun _ => .resp 404 (.ok [])) (fun _ => 0)
        exUrl emptyFS).record.retries = 0 := by
  have h := retryable_classification_and_404.2 defaultCfg [] exOut (fun _ => 0) exUrl emptyFS
    (by decide)
  exact ⟨by decide, by decide, h.1, h.2.1, h.2.2.1⟩

/-- retryFails unpacked: the attempt reaches the backoff/retry logic with a
non-cancellation error. -/
theorem retryFails_iff (r : HttpResp) :
    retryFails r = true ↔ ∃ e, classify r = .failCont e ∧ e.isCtxErr = false := by
  unfold retryFails
  rcases hc : classify r with bytes | e | e
  · simp
  · simp
  · simp [Bool.not_eq_true']

/-- When every attempt from k through k + rem fails retryably, the loop
performs them all: the final attempt count is k + rem, one HTTP request is
made per attempt, and it exits with an error. -/
theorem fetchLoop_exhausts (oracle : Nat → HttpResp) (now : Nat → Nat) (base cap : Int)
    (tmp out : GoPath) :
    ∀ (rem k : Nat) (fs : FS) (calls : Nat) (sleeps : List (Nat × Int)),
      (∀ i, k ≤ i → i ≤ k + rem → retryFails (oracle i) = true) →
      (fetchLoop oracle now base cap tmp out k rem fs calls sleeps).attemptCnt = k + rem ∧
      (fetchLoop oracle now base cap tmp out k rem fs calls sleeps).calls = calls + rem + 1 ∧
      ∃ e, (fetchLoop oracle now base cap tmp out k rem fs calls sleeps).lastErr = some e := by
  intro rem
  induction rem with
  | zero =>
    intro k fs calls sleeps h
    obtain ⟨e, hcl, hctx⟩ := (retryFails_iff (oracle k)).1 (h k le_rfl (by omega))
    rw [fetchLoop, hcl]
    dsimp only
    rw [hctx]
    exact ⟨rfl, rfl, e, rfl⟩
  | succ rem ih =>
    intro k fs calls sleeps h
    obtain ⟨e, hcl, hctx⟩ := (retryFails_iff (oracle k)).1 (h k le_rfl (by omega))
    rw [fetchLoop, hcl]
    dsimp only
    simp only [hctx, Bool.false_eq_true, if_false]
    have hrec := ih (k + 1)
      (attemptFS (fs.write tmp []) tmp out (oracle k)) (calls + 1)
      (sleeps ++ [(k, backoffSleep base cap k (now k))])
      (fun i h1 h2 => h i (by omega) (by omega))
    refine ⟨by rw [hrec.1]; omega, by rw [hrec.2.1]; omega, hrec.2.2⟩

/-- C7 (amended): when every attempt for a descriptor fails retryably,
fetchOne makes exactly max(1, configured_retries) total attempts — equal
to the configured number whenever it is at least 1, with 6 the default —
and the emitted Record's retries field is max(1, configured_retries) − 1
(so configured_retries − 1 for any configuration of at least one
attempt). -/
theorem fetchOne_retry_exhaustion (cfg : Cfg) (checks : List (String × String)) (outDir : GoPath)
    (oracle : Nat → HttpResp) (now : Nat → Nat) (url : String) (fs : FS)
    (hfs : fs.lookup (outPathFor outDir url) = none)
    (hor : ∀ i, 1 ≤ i → i ≤ max 1 cfg.retries → retryFails (oracle i) = true) :
    (fetchOne cfg checks outDir oracle now url fs).calls = max 1 cfg.retries ∧
    (fetchOne cfg checks outDir oracle now url fs).record.retries = max 1 cfg.retries - 1 ∧
    (fetchOne cfg checks outDir oracle now url fs).record.ok = false ∧
    (fetchOne cfg checks outDir oracle now url fs).record.status = "error" := by
  have hA : 1 ≤ max 1 cfg.retries := le_max_left _ _
  have hl := fetchLoop_exhausts oracle now cfg.retryBaseNs cfg.retryMaxNs
    (tmpPathFor outDir url) (outPathFor outDir url) (max 1 cfg.retries - 1) 1 fs 0 []
    (fun i h1 h2 => hor i h1 (by omega))
  obtain ⟨hcnt, hcalls, e, herr⟩ := hl
  simp only [fetchOne]
  rw [hfs]
  dsimp only
  simp only [fetchDownload]
  rw [herr]
  dsimp only
  rw [hcnt, hcalls]
  refine ⟨by omega, by omega, rfl, rfl⟩

/-- Witness for C7 (amended) at the default configuration: six attempts of
HTTP 500 produce six requests and a Record with retries = 5. -/
theorem fetchOne_retry_exhaustion_witness :
    (fetchOne defaultCfg [] exOut (fun _ => .resp 500 (.ok [])) (fun _ => 0)
        exUrl emptyFS).calls = max 1 defaultCfg.retries ∧
    (fetchOne defaultCfg [] exOut (fun _ => .resp 500 (.ok [])) (fun _ => 0)
        exUrl emptyFS).record.retries = max 1 defaultCfg.retries - 1 ∧
    (fetchOne defaultCfg [] exOut (fun _ => .resp 500 (.ok [])) (fun _ => 0)
        exUrl emptyFS).record.ok = false ∧
    (fetchOne defaultCfg [] exOut (fun _ => .resp 500 (.ok [])) (fun _ => 0)
        exUrl emptyFS).record.status = "error" :=
  fetchOne_retry_exhaustion defaultCfg [] exOut (fun _ => .resp 500 (.ok [])) (fun _ => 0)
    exUrl emptyFS (by decide)
    (fun i _ _ => (by decide : retryFails (HttpResp.resp 500 (BodyRead.ok [])) = true))

/-- Counterexample for C7 as stated: with configured retries = 0 (the
setter has no lower bound) and a permanently failing URL, fetchOne still
makes one attempt — not the configured zero — and the Record's retries
field is 0, not the promised configured_retries − 1 = −1 (which the
non-negative field cannot even hold). -/
theorem fetchOne_retry_zero_counterexample :
    (fetchOne { retries := 0, retryBaseNs := 500000000, retryMaxNs := 30000000000 } [] exOut
        (fun _ => .resp 500 (.ok [])) (fun _ => 0) exUrl emptyFS).calls = 1 ∧
    (1 : Nat) ≠ 0 ∧
    (fetchOne { retries := 0, retryBaseNs := 500000000, retryMaxNs := 30000000000 } [] exOut
        (fun _ => .resp 500 (.ok [])) (fun _ => 0) exUrl emptyFS).record.retries = 0 ∧
    (0 : Int) ≠ (0 : Int) - 1 := by
  refine ⟨by decide, by decide, by decide, by decide⟩

/-- Invariant of an enabled bundler: the bundle files on disk are exactly
indices currentIdx−1, …, 1, 0 (newest first) and at least one is open. -/
def BundlerInv (b : BundlerSt) : Prop :=
  b.enabled = true ∧ 0 < b.currentIdx ∧
    b.bundles.map Prod.fst = (List.range b.currentIdx).reverse

theorem bundlerInv_new (g : Nat) : BundlerInv (newBundler true g) := by
  refine ⟨rfl, ?_, ?_⟩ <;> simp [newBundler, rotateLocked, List.range_succ]

theorem bundlerInv_addFile (b : BundlerSt) (sz : Nat) (hn : String) (hb : BundlerInv b) :
    BundlerInv (addFile b sz hn) := by
  obtain ⟨he, hpos, hmap⟩ := hb
  have hne : b.bundles ≠ [] := by
    intro hnil
    rw [hnil] at hmap
    have hr : (List.range b.currentIdx).reverse ≠ [] := by
      simp [List.range_eq_nil]
      omega
    exact hr hmap.symm
  unfold addFile
  rw [he]
  simp only [Bool.not_true, Bool.false_eq_true, if_false]
  by_cases hrot : b.currentBytes + sz > b.targetBytes
  · rw [if_pos hrot]
    unfold rotateLocked
    rw [he]
    simp only [Bool.not_true, Bool.false_eq_true, if_false]
    refine ⟨rfl, ?_, ?_⟩
    · dsimp only
      omega
    · dsimp only
      simp [List.range_succ, hmap]
  · rw [if_neg hrot]
    rcases hbl : b.bundles with _ | ⟨⟨i, es⟩, rest⟩
    · exact absurd hbl hne
    · refine ⟨he, ?_, ?_⟩
      · dsimp only
        omega
      · dsimp only
        rw [hbl] at hmap
        simpa using hmap

theorem bundlerInv_run (g : Nat) (ops : List (Nat × String)) : BundlerInv (runBundler g ops) := by
  unfold runBundler
  have haux : ∀ (l : List (Nat × String)) (b : BundlerSt), BundlerInv b →
      BundlerInv (l.foldl (fun b op => addFile b op.1 op.2) b) := by
    intro l
    induction l with
    | nil => intro b hb; exact hb
    | cons op t ih =>
      intro b hb
      exact ih _ (bundlerInv_addFile b op.1 op.2 hb)
  exact haux ops _ (bundlerInv_new g)

theorem bundlerInv_bundles_ne (b : BundlerSt) (hb : BundlerInv b) : b.bundles ≠ [] := by
  obtain ⟨_, hpos, hmap⟩ := hb
  intro hnil
  rw [hnil] at hmap
  have hr : (List.range b.currentIdx).reverse ≠ [] := by
    simp [List.range_eq_nil]
    omega
  exact hr hmap.symm

/-- One AddFile call on an invariant-satisfying bundler: the index
advances by one exactly when currentBytes + size exceeds targetBytes (and
never moves otherwise), the byte count is reset on rotation and advanced
by the written size, and every existing bundle survives with its entries
preserved (append-only). -/
theorem addFile_step (b : BundlerSt) (size : Nat) (hdr : String) (hb : BundlerInv b) :
    (addFile b size hdr).currentIdx
      = b.currentIdx + (if b.currentBytes + size > b.targetBytes then 1 else 0) ∧
    (addFile b size hdr).currentBytes
      = (if b.currentBytes + size > b.targetBytes then 0 else b.currentBytes) + size ∧
    b.currentIdx ≤ (addFile b size hdr).currentIdx ∧
    ∀ i es, (i, es) ∈ b.bundles →
      ∃ es2, (i, es2) ∈ (addFile b size hdr).bundles ∧ es.IsSuffix es2 := by
  have hne : b.bundles ≠ [] := bundlerInv_bundles_ne b hb
  obtain ⟨he, hpos, hmap⟩ := hb
  unfold addFile
  rw [he]
  simp only [Bool.not_true, Bool.false_eq_true, if_false]
  by_cases hrot : b.currentBytes + size > b.targetBytes
  · rw [if_pos hrot]
    unfold rotateLocked
    rw [he]
    simp only [Bool.not_true, Bool.false_eq_true, if_false]
    refine ⟨?_, ?_, ?_, ?_⟩
    · simp [hrot]
    · simp [hrot]
    · simp
    · intro i es hmem
      exact ⟨es, List.mem_cons_of_mem _ hmem, List.suffix_refl es⟩
  · rw [if_neg hrot]
    rcases hbl : b.bundles with _ | ⟨⟨i0, es0⟩, rest⟩
    · exact absurd hbl hne
    · refine ⟨?_, ?_, ?_, ?_⟩
      · simp [hrot]
      · simp [hrot]
      · simp
      · intro i es hmem
        dsimp only
        rcases List.mem_cons.1 hmem with heq | hmem2
        · rw [Prod.mk.injEq] at heq
          obtain ⟨hi, hes⟩ := heq
          subst hi
          subst hes
          exact ⟨TarEntry.mk hdr size :: es, List.mem_cons_self _ _,
            List.suffix_cons _ _⟩
        · exact ⟨es, List.mem_cons_of_mem _ hmem2, List.suffix_refl es⟩

/-- C8: for an enabled Bundler, AddFile rotates (advances the index and
resets the byte count) exactly when the current uncompressed byte count
plus the new file's size exceeds the target; the bundle index only
advances and no bundle file is ever rewritten (existing bundles keep their
entries, the current one is append-only); and after any run the bundle
filenames are exactly bundle-0000 … bundle-K (newest first) with no
gaps. -/
theorem bundler_rotation_spec (targetGB : Nat) (ops : List (Nat × String)) :
    ((runBundler targetGB ops).bundles.map (fun p => bundleName p.1)
      = ((List.range (runBundler targetGB ops).currentIdx).reverse.map bundleName)) ∧
    ∀ (size : Nat) (hdr : String),
      (addFile (runBundler targetGB ops) size hdr).currentIdx
        = (runBundler targetGB ops).currentIdx
          + (if (runBundler targetGB ops).currentBytes + size
                > (runBundler targetGB ops).targetBytes then 1 else 0) ∧
      (addFile (runBundler targetGB ops) size hdr).currentBytes
        = (if (runBundler targetGB ops).currentBytes + size
              > (runBundler targetGB ops).targetBytes then 0
           else (runBundler targetGB ops).currentBytes) + size ∧
      (runBundler targetGB ops).currentIdx
        ≤ (addFile (runBundler targetGB ops) size hdr).currentIdx ∧
      ∀ i es, (i, es) ∈ (runBundler targetGB ops).bundles →
        ∃ es2, (i, es2) ∈ (addFile (runBundler targetGB ops) size hdr).bundles ∧
          es.IsSuffix es2 := by
  have hb := bundlerInv_run targetGB ops
  obtain ⟨-, -, hmap⟩ := hb
  constructor
  · rw [show (fun p : Nat × List TarEntry => bundleName p.1)
        = bundleName ∘ Prod.fst from rfl]
    rw [← List.map_map, hmap]
  · intro size hdr
    exact addFile_step _ size hdr (bundlerInv_run targetGB ops)

/-- Witness for C8 on a concrete run with threshold 0 (forcing rotation
on every write): the bundle filenames are exactly bundle-0002,
bundle-0001, bundle-0000, and the bundle holding the first artifact
survives a further AddFile with its entries preserved. -/
theorem bundler_rotation_witness :
    ((runBundler 0 [(1, "a"), (1, "b")]).bundles.map (fun p => bundleName p.1)
      = ["bundle-0002.tar.zst", "bundle-0001.tar.zst", "bundle-0000.tar.zst"]) ∧
    ∃ es2, (1, es2) ∈ (addFile (runBundler 0 [(1, "a"), (1, "b")]) 5 "c").bundles ∧
      List.IsSuffix [TarEntry.mk "a" 1] es2 := by
  have h := bundler_rotation_spec 0 [(1, "a"), (1, "b")]
  refine ⟨h.1.trans (by decide), ?_⟩
  exact (h.2 5 "c").2.2.2 1 [TarEntry.mk "a" 1] (by decide)

theorem mapLookup_insert_self (m : List (String × String)) (k v : String) :
    mapLookup (mapInsert m k v) k = some v := by
  simp [mapLookup, mapInsert]

theorem mapLookup_insert_ne (m : List (String × String)) (k v u : String) (h : k ≠ u) :
    mapLookup (mapInsert m k v) u = mapLookup m u := by
  simp [mapLookup, mapInsert, List.find?_cons, h]

/-- The fold step ReadChecksums applies per kept entry. -/
def insStep (m : List (String × String)) (ce : ChecksumEntry) : List (String × String) :=
  mapInsert m ce.url (strToLower ce.sha256)

theorem ReadChecksums_eq_foldl (lines : List (Option ChecksumEntry)) :
    ReadChecksums lines = (validEntries lines).foldl insStep [] := by
  have haux : ∀ (l : List (Option ChecksumEntry)) (m : List (String × String)),
      l.foldl
        (fun out e =>
          match e with
          | none => out
          | some ce =>
            if ce.url ≠ "" ∧ ce.sha256 ≠ "" then mapInsert out ce.url (strToLower ce.sha256)
            else out) m
        = (validEntries l).foldl insStep m := by
    intro l
    induction l with
    | nil => intro m; simp [validEntries]
    | cons e t ih =>
      intro m
      rcases e with _ | ce
      · simp only [List.foldl_cons]
        rw [ih]
        simp [validEntries, List.filterMap_cons]
      · by_cases hval : ce.url ≠ "" ∧ ce.sha256 ≠ ""
        · simp only [List.foldl_cons, if_pos hval]
          rw [ih]
          have : validEntries (some ce :: t) = ce :: validEntries t := by
            simp [validEntries, List.filterMap_cons, List.filter_cons, hval.1, hval.2]
          rw [this, List.foldl_cons]
          rfl
        · simp only [List.foldl_cons, if_neg hval]
          rw [ih]
          have hcnd : ¬((decide (ce.url ≠ "") && decide (ce.sha256 ≠ "")) = true) := by
            simp only [Bool.and_eq_true, decide_eq_true_eq]
            tauto
          have hve : validEntries (some ce :: t) = validEntries t := by
            simp only [validEntries, List.filterMap_cons, id_eq]
            rw [List.filter_cons, if_neg hcnd]
          rw [hve]
  exact haux lines []

/-- Lookup after folding inserts whose kept values for u all lower to c:
present iff some entry has url u, and then the value is c. -/
theorem lookup_foldl_common (u c : String) :
    ∀ (l : List ChecksumEntry) (m : List (String × String)),
      (∀ ce ∈ l, ce.url = u → strToLower ce.sha256 = c) →
      mapLookup (l.foldl insStep m) u
        = if l.any (fun ce => ce.url == u) then some c else mapLookup m u := by
  intro l
  induction l with
  | nil => intro m _; simp
  | cons ce t ih =>
    intro m h
    by_cases hu : ce.url = u
    · subst hu
      have hc : strToLower ce.sha256 = c := h ce (List.mem_cons_self _ _) rfl
      rw [List.foldl_cons, ih _ (fun x hx hxu => h x (List.mem_cons_of_mem _ hx) hxu)]
      by_cases ht : t.any (fun x => x.url == ce.url) = true
      · simp [List.any_cons, ht]
      · simp only [Bool.not_eq_true] at ht
        simp [List.any_cons, ht, insStep, mapLookup_insert_self, hc]
    · rw [List.foldl_cons, ih _ (fun x hx hxu => h x (List.mem_cons_of_mem _ hx) hxu)]
      have hne : mapLookup (insStep m ce) u = mapLookup m u :=
        mapLookup_insert_ne _ _ _ _ hu
      simp [List.any_cons, hu, hne]

/-- Every value found after the fold came from some folded entry (or was
already in the start map). -/
theorem lookup_foldl_mem (u v : String) :
    ∀ (l : List ChecksumEntry) (m : List (String × String)),
      mapLookup (l.foldl insStep m) u = some v →
      (∃ ce, ce ∈ l ∧ ce.url = u ∧ v = strToLower ce.sha256) ∨ mapLookup m u = some v := by
  intro l
  induction l with
  | nil => intro m h; exact Or.inr h
  | cons ce t ih =>
    intro m h
    rw [List.foldl_cons] at h
    rcases ih _ h with hl | hr
    · obtain ⟨x, hx, hxx⟩ := hl
      exact Or.inl ⟨x, List.mem_cons_of_mem _ hx, hxx⟩
    · by_cases hu : ce.url = u
      · subst hu
        rw [insStep, mapLookup_insert_self] at hr
        injection hr with hr
        exact Or.inl ⟨ce, List.mem_cons_self _ _, rfl, hr.symm⟩
      · rw [insStep, mapLookup_insert_ne _ _ _ _ hu] at hr
        exact Or.inr hr

/-- C9 (amended): ReadChecksums is order-independent whenever no URL is
given two conflicting (differently lowercased) sha256 values among the
kept entries — any permutation of such input lines yields the same
URL-to-sha256 map — and every value stored in the map is the lowercased
sha256 field of one of its source lines with that URL.  (With conflicting
duplicate URLs the later line wins, so permutations can differ.) -/
theorem ReadChecksums_perm_provenance (l1 l2 : List (Option ChecksumEntry))
    (hperm : l1.Perm l2)
    (hcompat : ∀ a ∈ validEntries l1, ∀ b ∈ validEntries l1,
      a.url = b.url → strToLower a.sha256 = strToLower b.sha256) :
    (∀ u, mapLookup (ReadChecksums l1) u = mapLookup (ReadChecksums l2) u) ∧
    (∀ u v, mapLookup (ReadChecksums l1) u = some v →
      ∃ ce, ce ∈ validEntries l1 ∧ ce.url = u ∧ v = strToLower ce.sha256) := by
  have hvp : (validEntries l1).Perm (validEntries l2) := by
    unfold validEntries
    exact (hperm.filterMap id).filter _
  constructor
  · intro u
    rw [ReadChecksums_eq_foldl, ReadChecksums_eq_foldl]
    by_cases ha : (validEntries l1).any (fun ce => ce.url == u) = true
    · rw [List.any_eq_true] at ha
      obtain ⟨ce0, hce0, hbeq⟩ := ha
      rw [beq_iff_eq] at hbeq
      have h1 := lookup_foldl_common u (strToLower ce0.sha256) (validEntries l1) []
        (fun ce hce hu => hcompat ce hce ce0 hce0 (by rw [hu, hbeq]))
      have h2 := lookup_foldl_common u (strToLower ce0.sha256) (validEntries l2) []
        (fun ce hce hu => hcompat ce (hvp.mem_iff.2 hce) ce0 hce0 (by rw [hu, hbeq]))
      have ha1 : (validEntries l1).any (fun ce => ce.url == u) = true := by
        rw [List.any_eq_true]
        exact ⟨ce0, hce0, by rw [beq_iff_eq]; exact hbeq⟩
      have ha2 : (validEntries l2).any (fun ce => ce.url == u) = true := by
        rw [List.any_eq_true]
        exact ⟨ce0, hvp.mem_iff.1 hce0, by rw [beq_iff_eq]; exact hbeq⟩
      rw [h1, h2, if_pos ha1, if_pos ha2]
    · have hnone : ∀ ce ∈ validEntries l1, ce.url ≠ u := by
        intro ce hce hu
        exact ha (List.any_eq_true.2 ⟨ce, hce, by rw [beq_iff_eq]; exact hu⟩)
      have h1 := lookup_foldl_common u "" (validEntries l1) []
        (fun ce hce hu => absurd hu (hnone ce hce))
      have h2 := lookup_foldl_common u "" (validEntries l2) []
        (fun ce hce hu => absurd hu (hnone ce (hvp.mem_iff.2 hce)))
      have ha2 : ¬(validEntries l2).any (fun ce => ce.url == u) = true := by
        intro hb
        rw [List.any_eq_true] at hb
        obtain ⟨ce, hce, hbeq⟩ := hb
        rw [beq_iff_eq] at hbeq
        exact hnone ce (hvp.mem_iff.2 hce) hbeq
      rw [h1, h2, if_neg ha, if_neg ha2]
  · intro u v h
    rw [ReadChecksums_eq_foldl] at h
    rcases lookup_foldl_mem u v (validEntries l1) [] h with hl | hr
    · obtain ⟨ce, hce, hh⟩ := hl
      exact ⟨ce, hce, hh⟩
    · simp [mapLookup] at hr

/-- Witness for C9 (amended) on two concrete permuted inputs with distinct
URLs. -/
theorem ReadChecksums_perm_witness :
    (∀ u, mapLookup (ReadChecksums
          [some (ChecksumEntry.mk "u1" "AA"), some (ChecksumEntry.mk "u2" "BB")]) u
        = mapLookup (ReadChecksums
          [some (ChecksumEntry.mk "u2" "BB"), some (ChecksumEntry.mk "u1" "AA")]) u) ∧
    (∀ u v, mapLookup (ReadChecksums
          [some (ChecksumEntry.mk "u1" "AA"), some (ChecksumEntry.mk "u2" "BB")]) u = some v →
      ∃ ce, ce ∈ validEntries
          [some (ChecksumEntry.mk "u1" "AA"), some (ChecksumEntry.mk "u2" "BB")] ∧
        ce.url = u ∧ v = strToLower ce.sha256) :=
  ReadChecksums_perm_provenance _ _
    (List.Perm.swap (some (ChecksumEntry.mk "u2" "BB")) (some (ChecksumEntry.mk "u1" "AA")) [])
    (by decide)

/-- Counterexample for C9 as stated: two lines sharing a URL with
different hashes — a permutation of the input lines changes the stored
value (the later line wins), so not every permutation yields the same
map. -/
theorem ReadChecksums_order_counterexample :
    List.Perm
      [some (ChecksumEntry.mk "u" "AA"), some (ChecksumEntry.mk "u" "BB")]
      [some (ChecksumEntry.mk "u" "BB"), some (ChecksumEntry.mk "u" "AA")] ∧
    mapLookup (ReadChecksums
        [some (ChecksumEntry.mk "u" "AA"), some (ChecksumEntry.mk "u" "BB")]) "u"
      ≠ mapLookup (ReadChecksums
        [some (ChecksumEntry.mk "u" "BB"), some (ChecksumEntry.mk "u" "AA")]) "u" := by
  constructor
  · exact List.Perm.swap _ _ _
  · decide

/-- Every sleep recorded by the retry loop beyond the initial accumulator
was computed by backoffSleep at its own attempt number (at least k). -/
theorem fetchLoop_sleeps (oracle : Nat → HttpResp) (now : Nat → Nat) (base cap : Int)
    (tmp out : GoPath) :
    ∀ (rem k : Nat) (fs : FS) (calls : Nat) (sleeps : List (Nat × Int)),
      ∀ x ∈ (fetchLoop oracle now base cap tmp out k rem fs calls sleeps).sleeps,
        x ∈ sleeps ∨ (k ≤ x.1 ∧ x.2 = backoffSleep base cap x.1 (now x.1)) := by
  intro rem
  induction rem with
  | zero =>
    intro k fs calls sleeps x hx
    left
    revert hx
    rw [fetchLoop]
    rcases hc : classify (oracle k) with b | e | e
    · exact fun hx => hx
    · exact fun hx => hx
    · cases hb : e.isCtxErr
      · simp only [hb, Bool.false_eq_true, if_false]
        exact fun hx => hx
      · simp only [hb, if_pos]
        exact fun hx => hx
  | succ rem ih =>
    intro k fs calls sleeps x hx
    revert hx
    rw [fetchLoop]
    rcases hc : classify (oracle k) with b | e | e
    · exact fun hx => Or.inl hx
    · exact fun hx => Or.inl hx
    · cases hb : e.isCtxErr
      · simp only [hb, Bool.false_eq_true, if_false]
        intro hx
        rcases ih (k + 1) _ _ _ x hx with hmem | hnew
        · rcases List.mem_append.1 hmem with h1 | h2
          · exact Or.inl h1
          · have hx2 := List.mem_singleton.1 h2
            subst hx2
            exact Or.inr ⟨le_rfl, rfl⟩
        · exact Or.inr ⟨by omega, hnew.2⟩
      · simp only [hb, if_pos]
        exact fun hx => Or.inl hx

/-- Every sleep of a download is backoffSleep at its attempt number. -/
theorem fetchDownload_sleeps (cfg : Cfg) (checks : List (String × String)) (outDir : GoPath)
    (oracle : Nat → HttpResp) (now : Nat → Nat) (url : String) (fs : FS) :
    ∀ x ∈ (fetchDownload cfg checks outDir oracle now url fs).sleeps,
      1 ≤ x.1 ∧ x.2 = backoffSleep cfg.retryBaseNs cfg.retryMaxNs x.1 (now x.1) := by
  intro x hx
  simp only [fetchDownload] at hx
  rcases hle : (fetchLoop oracle now cfg.retryBaseNs cfg.retryMaxNs (tmpPathFor outDir url)
      (outPathFor outDir url) 1 (max 1 cfg.retries - 1) fs 0 []).lastErr with _ | e
  · rw [hle] at hx
    dsimp only at hx
    rcases fetchLoop_sleeps oracle now cfg.retryBaseNs cfg.retryMaxNs _ _ _ 1 fs 0 [] x hx
      with hin | hgood
    · cases hin
    · exact hgood
  · rw [hle] at hx
    dsimp only at hx
    rcases fetchLoop_sleeps oracle now cfg.retryBaseNs cfg.retryMaxNs _ _ _ 1 fs 0 [] x hx
      with hin | hgood
    · cases hin
    · exact hgood

/-- Every sleep of a fetch is backoffSleep at its attempt number (the
resume-skip path sleeps not at all). -/
theorem fetchOne_sleeps (cfg : Cfg) (checks : List (String × String)) (outDir : GoPath)
    (oracle : Nat → HttpResp) (now : Nat → Nat) (url : String) (fs : FS) :
    ∀ x ∈ (fetchOne cfg checks outDir oracle now url fs).sleeps,
      1 ≤ x.1 ∧ x.2 = backoffSleep cfg.retryBaseNs cfg.retryMaxNs x.1 (now x.1) := by
  intro x hx
  simp only [fetchOne] at hx
  rcases hl : fs.lookup (outPathFor outDir url) with _ | c0
  · rw [hl] at hx
    dsimp only at hx
    exact fetchDownload_sleeps cfg checks outDir oracle now url fs x hx
  · rw [hl] at hx
    dsimp only at hx
    by_cases hv : (verifyFile checks fs (outPathFor outDir url) url).1 = true
    · rw [if_pos hv] at hx
      cases hx
    · rw [if_neg hv] at hx
      exact fetchDownload_sleeps cfg checks outDir oracle now url fs x hx

/-- Below attempt 36 the default backoff has no int64 overflow and equals
the clamped exponential times the jitter numerator over 1024. -/
theorem backoffSleep_default (k t : Nat) (h1 : 1 ≤ k) (h35 : k ≤ 35) :
    backoffSleep 500000000 30000000000 k t
      = ((min ((500000000 : Int) * 2 ^ (k - 1)) 30000000000)
          * (512 + ((t &&& 1023 : Nat) : Int))).tdiv 1024 := by
  unfold backoffSleep
  have hpow : (2 : Int) ^ (k - 1) ≤ 2 ^ 34 := by
    apply pow_le_pow_right₀ (by norm_num)
    omega
  have hb0 : (0 : Int) ≤ 500000000 * 2 ^ (k - 1) := by positivity
  have hb1 : (500000000 : Int) * 2 ^ (k - 1) < 9223372036854775808 := by
    calc (500000000 : Int) * 2 ^ (k - 1) ≤ 500000000 * 2 ^ 34 :=
          mul_le_mul_of_nonneg_left hpow (by norm_num)
      _ < 9223372036854775808 := by norm_num
  have hw : wrap64 (500000000 * 2 ^ (k - 1)) = 500000000 * 2 ^ (k - 1) := by
    unfold wrap64
    rw [Int.emod_eq_of_lt hb0 (by omega)]
    rw [if_pos hb1]
  rw [hw]
  have hmin : (if (500000000 : Int) * 2 ^ (k - 1) > 30000000000 then (30000000000 : Int)
      else 500000000 * 2 ^ (k - 1))
      = min ((500000000 : Int) * 2 ^ (k - 1)) 30000000000 := by
    rcases le_or_lt ((500000000 : Int) * 2 ^ (k - 1)) 30000000000 with hle | hlt
    · rw [if_neg (not_lt.2 hle), min_eq_left hle]
    · rw [if_pos hlt, min_eq_right (le_of_lt hlt)]
  simp only [hmin]

/-- C10 (amended): at the default base (500 ms) and cap (30 s), every
backoff sleep scheduled by fetchOne after a retryable failure on a
non-final attempt k with k ≤ 35 equals min(base × 2^(k−1), cap) times the
jitter (512 + (t & 0x3ff))/1024 — a factor in [0.5, 1.5) — truncated to
whole nanoseconds.  (From attempt 36 on, base << (k−1) overflows int64 and
the sleep is garbage; see the counterexample.) -/
theorem fetchOne_backoff_formula (r : Nat) (checks : List (String × String)) (outDir : GoPath)
    (oracle : Nat → HttpResp) (now : Nat → Nat) (url : String) (fs : FS) (k : Nat) (s : Int)
    (hmem : (k, s) ∈ (fetchOne (Cfg.mk r 500000000 30000000000)
        checks outDir oracle now url fs).sleeps)
    (h35 : k ≤ 35) :
    1 ≤ k ∧
    s = ((min ((500000000 : Int) * 2 ^ (k - 1)) 30000000000)
          * (512 + ((now k &&& 1023 : Nat) : Int))).tdiv 1024 ∧
    ((now k &&& 1023 : Nat) : Int) < 1024 := by
  have h := fetchOne_sleeps _ checks outDir oracle now url fs (k, s) hmem
  refine ⟨h.1, ?_, ?_⟩
  · have hs := h.2
    dsimp only at hs
    rw [hs]
    exact backoffSleep_default k (now k) h.1 h35
  · have hle : (now k &&& 1023) ≤ 1023 := Nat.and_le_right
    omega

/-- Witness for C10 (amended): with two attempts of HTTP 500 and clock 7,
the single backoff (attempt 1) is (min(500ms × 1, 30s) × (512 + 7))/1024
= 253417968 ns. -/
theorem fetchOne_backoff_witness :
    1 ≤ 1 ∧
    (253417968 : Int) = ((min ((500000000 : Int) * 2 ^ (1 - 1)) 30000000000)
        * (512 + (((fun (_ : Nat) => 7) 1 &&& 1023 : Nat) : Int))).tdiv 1024 ∧
    ((((fun (_ : Nat) => 7) 1 &&& 1023 : Nat)) : Int) < 1024 :=
  fetchOne_backoff_formula 2 [] exOut (fun _ => .resp 500 (.ok [])) (fun _ => 7)
    exUrl emptyFS 1 253417968 (by decide) (by decide)

set_option maxRecDepth 40000 in
/-- Counterexample for C10 as stated: with the default base and cap and 40
configured attempts (the retries setter accepts any count), the backoff
scheduled after attempt 36 is the negative value −633437444854775808 ns —
base << 35 overflows int64 — whereas min(base × 2^35, cap) times any
jitter in [0.5, 1.5) is strictly positive. -/
theorem backoff_overflow_counterexample :
    ((36 : Nat), (-633437444854775808 : Int)) ∈
      (fetchOne (Cfg.mk 40 500000000 30000000000) [] exOut
        (fun _ => .resp 500 (.ok [])) (fun _ => 0) exUrl emptyFS).sleeps ∧
    (-633437444854775808 : Int) < 0 ∧
    (∀ j : Nat, j < 1024 →
      0 < ((min ((500000000 : Int) * 2 ^ (36 - 1)) 30000000000)
        * (512 + (j : Int))).tdiv 1024) := by
  refine ⟨by decide, by decide, by decide⟩
